import Mathlib

/-!
Shallow embedding of the model worker lifecycle and IPC bridging subsystem of
mlserver (`models.go`, `workers.go`).

Conventions of the embedding:
* Go pointers to `Model` are `Option Model` (`none` is a nil pointer); the
  registry's `map[string]*Model` is an association list updated by overwrite.
* `float64` values (scores, probabilities) are stored and passed through by
  the Go code, never computed with, so an opaque numeric carrier (`Int`)
  suffices.
* Channels are modelled by their lifecycle state (`unset` = Go `nil`,
  `opened` = freshly `make`d, `closed`); a send on a `closed` channel is a Go
  runtime panic, which the embedding records as an explicit outcome.
* Effects of child processes (zmq sockets, `cmd.Run`) are modelled by
  explicit parameters describing whether each external step succeeds,
  mirroring the worker-process contract.
-/

namespace MLServer

/-- Opaque carrier for `float64` values that the Go core stores but never
computes with. -/
abbrev Score := Int

/-- A JSON scalar appearing in request rows / labels (`interface\x7b\x7d` in Go:
string or numeric). -/
inductive JVal
  | s (v : String)
  | n (v : Score)
deriving DecidableEq, Repr

/-- `Model.Metadata` of `models.go`: name and creation time. -/
structure Metadata where
  name : String
  date : Nat
deriving DecidableEq, Repr

/-- `Model.Performance` of `models.go`: algorithm, optional confusion matrix,
score. -/
structure Performance where
  algorithm : String
  confusionMatrix : List (String × List (String × Score))
  score : Score
deriving DecidableEq, Repr

/-- Lifecycle state of a Go channel: `unset` is a nil channel (never made),
`opened` is a live channel produced by `make`, `closed` is a channel on which
`close` has been called. -/
inductive ChanState
  | unset
  | opened
  | closed
deriving DecidableEq, Repr

/-- Handle to a launched child process (`exec.Cmd` with its `Process`);
`exited` records whether the process has already terminated. -/
structure Proc where
  exited : Bool
deriving DecidableEq, Repr

/-- The `Model` struct of `models.go`: metadata, performance, runtime flags,
the req/rep channel pair, the model directory and the attached command. -/
structure Model where
  id : String
  metadata : Metadata
  performance : Performance
  running : Bool
  trained : Bool
  req : ChanState
  rep : ChanState
  dir : String
  cmd : Option Proc
deriving DecidableEq, Repr

/-- The decodable fields of a model metadata JSON file
(`<root>/<id>/<id>.json`): exactly the JSON-tagged fields of `Model`. -/
structure ModelFile where
  id : String
  metadata : Metadata
  performance : Performance
  running : Bool
  trained : Bool
deriving DecidableEq, Repr

/-- Content found at a metadata path on disk: either JSON that decodes into
the fields of `Model`, or bytes on which `json.Decode` fails. -/
inductive FileData
  | valid (mf : ModelFile)
  | corrupt
deriving DecidableEq, Repr

/-- The on-disk model root: the entry names directly under the root (what
`filepath.Glob(root ++ "/*")` enumerates, with the root stripped), and the
file contents keyed by full path. -/
structure Disk where
  entries : List String
  files : List (String × FileData)
deriving DecidableEq, Repr

/-- Association-list lookup, the embedding of reading a Go map. -/
def lookupA {α : Type} (l : List (String × α)) (k : String) : Option α :=
  match l with
  | [] => none
  | (k', v) :: t => if k' = k then some v else lookupA t k

/-- Association-list overwrite, the embedding of a Go map assignment
`mp[k] = v`. -/
def insertA {α : Type} (l : List (String × α)) (k : String) (v : α) :
    List (String × α) :=
  match l with
  | [] => [(k, v)]
  | (k', v') :: t => if k' = k then (k, v) :: t else (k', v') :: insertA t k v

/-- Read a file from the disk model (`os.Open` + decode; `none` means the
file does not exist, i.e. `os.IsNotExist`). -/
def Disk.file (d : Disk) (path : String) : Option FileData :=
  lookupA d.files path

/-- Write a file (used by the fit worker contract). -/
def Disk.write (d : Disk) (path : String) (c : FileData) : Disk :=
  { d with files := insertA d.files path c }

/-- `ModelRepo` of `models.go`: the id → model collection plus the model
root path. -/
structure ModelRepo where
  collection : List (String × Model)
  path : String
deriving DecidableEq, Repr

/-- `NewModelRepo`: empty collection, given root path. -/
def NewModelRepo (path : String) : ModelRepo :=
  { collection := [], path := path }

/-- `ModelRepo.Add`: `r.collection[m.ID] = m`. -/
def ModelRepo.Add (r : ModelRepo) (m : Model) : ModelRepo :=
  { r with collection := insertA r.collection m.id m }

/-- `ModelRepo.All`: snapshot of all models currently in the collection. -/
def ModelRepo.All (r : ModelRepo) : List Model :=
  r.collection.map (fun p => p.2)

/-- `ModelRepo.NewModel`: a model with a caller-supplied fresh id (the source
draws it from `uuid.New()`) and directory `filepath.Join(r.path, id)`; every
other field is the Go zero value. -/
def ModelRepo.NewModel (r : ModelRepo) (id : String) : Model :=
  { id := id
    metadata := { name := "", date := 0 }
    performance := { algorithm := "", confusionMatrix := [], score := 0 }
    running := false
    trained := false
    req := .unset
    rep := .unset
    dir := r.path ++ "/" ++ id
    cmd := none }

/-- Error taxonomy of the embedded core: `ErrModelNotFound`, a JSON decode
failure, and the two zmq failure points of `startModel`. -/
inductive MlError
  | modelNotFound
  | decodeFailure
  | newSocketFailed
  | connectFailed
deriving DecidableEq, Repr

/-- The path of the metadata file consulted by `LoadModelData`:
`filepath.Join(r.path, id, id ++ ".json")`. -/
def metaPath (root id : String) : String :=
  root ++ "/" ++ id ++ "/" ++ id ++ ".json"

/-- The model value built by the cache-miss path of `LoadModelData`: the
decoded JSON fields, with `dir` set to the model directory and `Trained`
overwritten to `true`; channels and `cmd` are zero-valued. -/
def decodeModel (mf : ModelFile) (modelDir : String) : Model :=
  { id := mf.id
    metadata := mf.metadata
    performance := mf.performance
    running := mf.running
    trained := true
    req := .unset
    rep := .unset
    dir := modelDir
    cmd := none }

/-- `ModelRepo.LoadModelData` of `models.go`, lines 188-216.

The source checks the collection first; on a hit it returns the cached
pointer.  On a miss it opens `<path>/<id>/<id>.json` (absent file ↦
`ErrModelNotFound`, undecodable content ↦ the decode error), decodes into a
*shadowing* local variable `var m Model`, sets `m.dir` and `m.Trained = true`
on that local, and adds the local's address to the collection.  The final
`return m, nil` returns the *outer* `m`, which on the miss path is still the
nil pointer from the failed map lookup — so a successful cache-miss load
returns `(.ok none, …)` here: the cache is updated but the returned pointer
is nil. -/
def ModelRepo.LoadModelData (disk : Disk) (r : ModelRepo) (id : String) :
    Except MlError (Option Model) × ModelRepo :=
  match lookupA r.collection id with
  | some m => (.ok (some m), r)
  | none =>
    let modelDir := r.path ++ "/" ++ id
    match disk.file (metaPath r.path id) with
    | none => (.error .modelNotFound, r)
    | some .corrupt => (.error .decodeFailure, r)
    | some (.valid mf) =>
      let m2 := decodeModel mf modelDir
      (.ok none, r.Add m2)

/-- Outcome of whether each external zmq step of `startModel` succeeds:
`zmq.NewSocket(zmq.REQ)` and `socket.Connect(socketPath)`. -/
structure ZmqEnv where
  newSocketOK : Bool
  connectOK : Bool
deriving DecidableEq, Repr

/-- A child-process launch performed by `exec.Command`: the program and its
argument vector. -/
structure Launch where
  prog : String
  args : List String
deriving DecidableEq, Repr

/-- The positional arguments handed to the worker script itself, i.e. the
arguments after the `-` that tells python to read the script from stdin
(`sys.argv[1:]` inside `predict.py`). -/
def Launch.scriptArgs (l : Launch) : List String :=
  l.args.drop 1

/-- The IPC endpoint `startModel` derives for a model:
`fmt.Sprint("ipc:///tmp/", m.ID)`. -/
def ipcEndpoint (m : Model) : String :=
  "ipc:///tmp/" ++ m.id

/-- The serialized-artifact path `startModel` hands to the worker:
`filepath.Join(m.dir, m.ID ++ ".pkl")`. -/
def artifactPath (m : Model) : String :=
  m.dir ++ "/" ++ m.id ++ ".pkl"

/-- `startModel` of `workers.go`, lines 77-144, up to its return.

The source first makes fresh `req`/`rep` channels and sets `Running = true`
(lines 80-82), then creates the zmq REQ socket — a failure there returns
before anything is launched and with the flags left as set.  Otherwise it
builds `exec.Command("python3", "-", socketPath, <dir>/<id>.pkl)`, attaches
it as `m.cmd`, spawns the supervisor goroutine running the process, and
connects the socket — a connect failure again returns the error with
`Running` still `true`.  The result records the Go error, the model as
mutated at the moment `startModel` returns, and the launches performed. -/
def startModel (env : ZmqEnv) (m : Model) :
    Except MlError Unit × Model × List Launch :=
  let m1 : Model := { m with req := .opened, rep := .opened, running := true }
  if env.newSocketOK then
    let launch : Launch :=
      { prog := "python3", args := ["-", ipcEndpoint m, artifactPath m] }
    let m2 : Model := { m1 with cmd := some { exited := false } }
    if env.connectOK then
      (.ok (), m2, [launch])
    else
      (.error .connectFailed, m2, [launch])
  else
    (.error .newSocketFailed, m1, [])

/-- The deferred block of the supervisor goroutine of `startModel` (lines
102-108): when the worker process exits — for any reason — the supervisor
sets `Running = false`, closes the request channel, and the process handle
becomes a finished process. -/
def workerExit (m : Model) : Model :=
  { m with running := false
           req := .closed
           cmd := m.cmd.map (fun p => { p with exited := true }) }

/-- Outcome of `Get`: a returned model pointer, a returned error, or the
runtime panic raised by dereferencing a nil `*Model` inside `r.Add(m)`. -/
inductive GetOutcome
  | ok (m : Model)
  | err (e : MlError)
  | nilPanic
deriving DecidableEq, Repr

/-- The tail of `ModelRepo.Get` (lines 169-181) once a non-nil model pointer
`m` is in hand: `r.Add(m)` re-inserts the pointer, and under the model's run
lock the worker is started when `Running` is false.  Because the collection
holds the same pointer `startModel` mutates, the cache entry reflects the
mutated model; a `startModel` error is returned as `(nil, err)` with the
mutated, still-cached model left behind. -/
def getStart (env : ZmqEnv) (r : ModelRepo) (m : Model) :
    GetOutcome × ModelRepo :=
  let r1 := r.Add m
  if m.running then (.ok m, r1)
  else
    match startModel env m with
    | (.ok _, m', _) => (.ok m', r1.Add m')
    | (.error e, m', _) => (.err e, r1.Add m')

/-- `ModelRepo.Get` of `models.go`, lines 156-182.

On a cache hit the cached pointer is used.  On a miss `LoadModelData` runs;
its error propagates.  On a successful miss-path load `LoadModelData`
returns a nil pointer (see its doc), and the following `r.Add(m)` evaluates
`m.ID` on that nil pointer — a nil-dereference panic, recorded as
`GetOutcome.nilPanic` with the registry as `LoadModelData` left it. -/
def ModelRepo.Get (env : ZmqEnv) (disk : Disk) (r : ModelRepo) (id : String) :
    GetOutcome × ModelRepo :=
  match lookupA r.collection id with
  | some m => getStart env r m
  | none =>
    match r.LoadModelData disk id with
    | (.error e, r') => (.err e, r')
    | (.ok none, r') => (.nilPanic, r')
    | (.ok (some m), r') => getStart env r' m

/-- Opaque byte payloads carried over channels and the zmq socket. -/
abbrev Bytes := List Nat

/-- A decoded prediction row: label → probability
(`map[string]float64`). -/
abbrev LabelProbs := List (String × Score)

/-- The `Prediction` struct of `models.go`. -/
structure Prediction where
  modelID : String
  labels : List LabelProbs
deriving DecidableEq, Repr

/-- The Go zero value `Prediction\x7b\x7d` returned by the error paths of
`Predict`. -/
def zeroPrediction : Prediction :=
  { modelID := "", labels := [] }

/-- The `ModelReq` struct of `models.go`: an incoming fit/predict request. -/
structure ModelReq where
  modelID : String
  name : String
  date : Nat
  data : List (List (String × JVal))
  labels : List JVal
  isRegression : Bool
deriving DecidableEq, Repr

/-- How a call to `Model.Predict` ends: a normal return of a `Prediction`
value, or the runtime panic raised by sending on a closed channel. -/
inductive CallOutcome
  | ret (p : Prediction)
  | panicSendClosed
deriving DecidableEq, Repr

/-- `Model.Predict` of `models.go`, lines 60-88.

The request is JSON-encoded (`encode`; an encode failure returns the zero
`Prediction`, a path not hit for the plain data of `ModelReq`).  If `m.req`
is a nil channel the function logs and returns the zero `Prediction`.
Otherwise it sends the bytes on `m.req` — in Go a send on a *closed* channel
panics, which is exactly the state the supervisor leaves behind after the
worker process exits — and on an open channel with the bridge running it
receives the worker's reply from `m.rep` (`workerReply` composes the bridge
and the worker process, which answers every request with one reply), decodes
the labels (a decode failure leaves them nil) and returns the parsed
`Prediction` carrying the request's model id. -/
def Model.Predict (m : Model) (r : ModelReq) (encode : ModelReq → Bytes)
    (decodeLabels : Bytes → Option (List LabelProbs))
    (workerReply : Bytes → Bytes) : CallOutcome :=
  let buf := encode r
  match m.req with
  | .unset => .ret zeroPrediction
  | .closed => .panicSendClosed
  | .opened =>
    let resp := workerReply buf
    let pred := (decodeLabels resp).getD []
    .ret { modelID := r.modelID, labels := pred }

/-- Signals the embedding distinguishes. -/
inductive Sig
  | interrupt
  | kill
deriving DecidableEq, Repr

/-- `os.Process.Signal`: delivering a signal to a process that has already
finished fails with the `os` error "process already finished"; otherwise the
signal is delivered. -/
def signalProc (p : Proc) (_s : Sig) : Except String Unit :=
  if p.exited then .error "os: process already finished" else .ok ()

/-- `Model.Stop` of `models.go`, lines 91-96: if a command is attached, send
`os.Interrupt` to its process and return that result; otherwise return nil.
The result records the Go error, the signals sent, and the model as `Stop`
leaves it — `Stop` returns immediately and never touches `Running` or the
channels. -/
def Model.Stop (m : Model) : Except String Unit × List Sig × Model :=
  match m.cmd with
  | some p => (signalProc p .interrupt, [.interrupt], m)
  | none => (.ok (), [], m)

/-- `fitModel` of `workers.go`, lines 31-64.

The training data is written to a temp file and the fit worker runs
synchronously.  Per the worker-process contract (spec §6, `fit.py`): on exit
status zero the worker has written `<dir>/<id>.json` (content `mf`, and the
`.pkl` artifact next to it); on nonzero exit it has written nothing.  A
failure is only logged.  Afterwards `r.LoadModelData(m.ID)` runs
unconditionally, its returned pointer discarded and its error only logged.
The result is the disk and registry after the job. -/
def fitModel (fitOK : Bool) (mf : ModelFile) (disk : Disk) (m : Model)
    (r : ModelRepo) : Disk × ModelRepo :=
  let disk1 := if fitOK then disk.write (m.dir ++ "/" ++ m.id ++ ".json") (.valid mf)
               else disk
  let res := r.LoadModelData disk1 m.id
  (disk1, res.2)

/-- The loop body of `ModelRepo.IndexModelDir` (models.go:224-227), which
also accumulates the log entries the scan emits: for each entry name (the
glob result with `r.path ++ "/"` trimmed off), run `LoadModelData`,
discarding both the returned pointer and the error.  The body contains no
logging statement — `r.LoadModelData(modelID)` is a bare call whose results
are dropped unexamined, and `LoadModelData` itself (models.go:188-216)
contains no log call either — so each iteration contributes no log
entries. -/
def indexLoop (disk : Disk) (r : ModelRepo) :
    List String → ModelRepo × List String
  | [] => (r, [])
  | e :: es =>
    let res := r.LoadModelData disk e
    let rest := indexLoop disk res.2 es
    (rest.1, [] ++ rest.2)

/-- `ModelRepo.IndexModelDir` of `models.go`, lines 218-229:
`filepath.Glob(r.path ++ "/*")` enumerates the entries of the model root
(the pattern is well-formed, so the only Glob error, `ErrBadPattern`, cannot
occur); each entry is loaded with `LoadModelData`, whose per-entry errors
are ignored; the scan itself returns nil.  The second component of the
result pair is the registry after the scan together with the log entries the
scan emitted. -/
def ModelRepo.IndexModelDir (disk : Disk) (r : ModelRepo) :
    Except MlError Unit × ModelRepo × List String :=
  (.ok (), indexLoop disk r disk.entries)

/-- Events of the bridging goroutine of `startModel` (lines 128-141), in
order: a blocking `SendBytes` on the zmq socket, a blocking `RecvBytes`, a
write of the reply to the `rep` channel, and the final `close(m.rep)`. -/
inductive BridgeEvent
  | ipcSend (msg : Bytes)
  | ipcRecv (msg : Bytes)
  | repWrite (msg : Bytes)
  | repClose
deriving DecidableEq, Repr

/-- The bridging goroutine of `startModel`: `for request := range m.req`
performs one `SendBytes`, then one `RecvBytes` (the worker process answers
each request with exactly one reply, `worker`), then one write to `m.rep`;
when the request channel is closed — its remaining contents are the list
`reqs` — the loop ends and the goroutine closes `m.rep`. -/
def bridgeTrace (worker : Bytes → Bytes) : List Bytes → List BridgeEvent
  | [] => [.repClose]
  | q :: qs =>
    .ipcSend q :: .ipcRecv (worker q) :: .repWrite (worker q) ::
      bridgeTrace worker qs

/-- The payload of an `ipcSend` event. -/
def BridgeEvent.sendMsg : BridgeEvent → Option Bytes
  | .ipcSend msg => some msg
  | _ => none

/-- The payload of a `repWrite` event. -/
def BridgeEvent.writeMsg : BridgeEvent → Option Bytes
  | .repWrite msg => some msg
  | _ => none

/-- The payload of an `ipcRecv` event. -/
def BridgeEvent.recvMsg : BridgeEvent → Option Bytes
  | .ipcRecv msg => some msg
  | _ => none

/-- Number of `ipcSend` events in a trace. -/
def countSends : List BridgeEvent → Nat
  | [] => 0
  | .ipcSend _ :: t => countSends t + 1
  | _ :: t => countSends t

/-- Number of `repWrite` events in a trace. -/
def countWrites : List BridgeEvent → Nat
  | [] => 0
  | .repWrite _ :: t => countWrites t + 1
  | _ :: t => countWrites t

/-- The per-request blocks of the bridging task: for each request, in input
order, one IPC send, one IPC receive, one reply write. -/
def bridgeBlocks (worker : Bytes → Bytes) : List Bytes → List BridgeEvent
  | [] => []
  | q :: qs =>
    .ipcSend q :: .ipcRecv (worker q) :: .repWrite (worker q) ::
      bridgeBlocks worker qs

/-! ### Association-list helper lemmas -/

theorem lookupA_insertA_self {α : Type} (l : List (String × α)) (k : String)
    (v : α) : lookupA (insertA l k v) k = some v := by
  induction l with
  | nil => simp [insertA, lookupA]
  | cons p t ih =>
    by_cases h : p.1 = k
    · simp [insertA, lookupA, h]
    · simp [insertA, lookupA, h, ih]

theorem lookupA_insertA_ne {α : Type} (l : List (String × α)) (k k' : String)
    (v : α) (h : k ≠ k') : lookupA (insertA l k v) k' = lookupA l k' := by
  induction l with
  | nil => simp [insertA, lookupA, h]
  | cons p t ih =>
    by_cases hp : p.1 = k
    · simp [insertA, lookupA, hp, h]
    · simp [insertA, lookupA, hp, ih]

theorem lookupA_eq_none_forall {α : Type} (l : List (String × α)) (k : String)
    (h : lookupA l k = none) : ∀ p ∈ l, p.1 ≠ k := by
  induction l with
  | nil => intro p hp; cases hp
  | cons q t ih =>
    intro p hp
    by_cases hq : q.1 = k
    · simp [lookupA, hq] at h
    · rcases List.mem_cons.mp hp with hp' | hp'
      · subst hp'; exact hq
      · exact ih (by simpa [lookupA, hq] using h) p hp'

/-! ### C4: get on an id absent from cache and disk -/

/-- C4: for every model id absent from the registry cache and whose metadata
file `<root>/<id>/<id>.json` does not exist on disk, `Get` fails with
`ErrModelNotFound` and leaves the registry unchanged (no record is added to
the cache). -/
theorem C4_get_absent_notFound (env : ZmqEnv) (disk : Disk) (r : ModelRepo)
    (id : String) (hc : lookupA r.collection id = none)
    (hd : disk.file (metaPath r.path id) = none) :
    ModelRepo.Get env disk r id = (.err .modelNotFound, r) := by
  unfold ModelRepo.Get ModelRepo.LoadModelData
  rw [hc]
  simp [hc, hd]

/-- C4 witness: on an empty registry rooted at "models" and an empty disk,
`Get` of "m1" returns `ErrModelNotFound` and the unchanged registry. -/
theorem C4_get_absent_notFound_witness :
    ModelRepo.Get ⟨true, true⟩ ⟨[], []⟩ (NewModelRepo "models") "m1"
      = (.err .modelNotFound, NewModelRepo "models") :=
  C4_get_absent_notFound ⟨true, true⟩ ⟨[], []⟩ (NewModelRepo "models") "m1"
    rfl rfl

/-! ### C10: LoadModelData forces the trained flag -/

/-- C10: every record the cache-miss path of `LoadModelData` inserts into
the registry cache is `decodeModel mf modelDir`, whose `trained` flag is
`true` no matter what the `trained` field of the metadata file `mf` says
(the loader unconditionally overwrites the decoded flag), and the inserted
record is found in the cache under its id. -/
theorem C10_loaded_record_trained (disk : Disk) (r : ModelRepo) (id : String)
    (mf : ModelFile) (hc : lookupA r.collection id = none)
    (hd : disk.file (metaPath r.path id) = some (.valid mf)) :
    (r.LoadModelData disk id).2.collection
        = insertA r.collection mf.id (decodeModel mf (r.path ++ "/" ++ id)) ∧
    (decodeModel mf (r.path ++ "/" ++ id)).trained = true ∧
    lookupA (r.LoadModelData disk id).2.collection mf.id
        = some (decodeModel mf (r.path ++ "/" ++ id)) := by
  unfold ModelRepo.LoadModelData
  rw [hc]
  simp [hc, hd, ModelRepo.Add, decodeModel, lookupA_insertA_self]

/-- A sample metadata file whose `trained` and `running` fields are both
`false`, used as concrete input by witnesses. -/
def mf1 : ModelFile :=
  { id := "m1", metadata := { name := "iris", date := 5 }
    performance := { algorithm := "rf", confusionMatrix := [], score := 9 }
    running := false, trained := false }

/-- A sample disk holding exactly one model, `m1`, with metadata `mf1`. -/
def disk1 : Disk :=
  { entries := ["m1"], files := [(metaPath "models" "m1", .valid mf1)] }

/-- A freshly constructed, empty registry rooted at "models". -/
def repo0 : ModelRepo := NewModelRepo "models"

/-- C10 witness: a metadata file whose `trained` field is `false` (and
`running` is `false`) still yields a cached record with `trained = true`. -/
theorem C10_loaded_record_trained_witness :
    (repo0.LoadModelData disk1 "m1").2.collection
        = insertA repo0.collection mf1.id
            (decodeModel mf1 (repo0.path ++ "/" ++ "m1")) ∧
    (decodeModel mf1 (repo0.path ++ "/" ++ "m1")).trained = true ∧
    lookupA (repo0.LoadModelData disk1 "m1").2.collection mf1.id
        = some (decodeModel mf1 (repo0.path ++ "/" ++ "m1")) :=
  C10_loaded_record_trained disk1 repo0 "m1" mf1 rfl rfl

/-! ### C1: the cache-miss path of Get -/

/-- The record the miss path of `LoadModelData` builds for `mf1`. -/
def m1loaded : Model := decodeModel mf1 ("models" ++ "/" ++ "m1")

/-- `m1loaded` as `startModel` leaves it after a fully successful start. -/
def m1started : Model :=
  { m1loaded with req := .opened, rep := .opened, running := true
                  cmd := some { exited := false } }

/-- C1: evaluation of `Get` at the failing input of the claim — an empty
registry cache and a disk holding the valid metadata file
`models/m1/m1.json`.  The claim says this `Get` returns the loaded record
and caches it; the code instead panics with a nil-pointer dereference inside
`r.Add(m)`, because the shadowed inner variable of `LoadModelData` makes the
miss path return a nil `*Model`.  The record *is* inserted into the cache by
`LoadModelData`, so a subsequent `Get` succeeds from the cache (and starts
the worker). -/
theorem C1_get_miss_nil_panic :
    (ModelRepo.Get ⟨true, true⟩ disk1 repo0 "m1").1 = .nilPanic ∧
    lookupA (ModelRepo.Get ⟨true, true⟩ disk1 repo0 "m1").2.collection "m1"
        = some m1loaded ∧
    (ModelRepo.Get ⟨true, true⟩ disk1
        (ModelRepo.Get ⟨true, true⟩ disk1 repo0 "m1").2 "m1").1
        = .ok m1started :=
  ⟨rfl, rfl, rfl⟩

/-! ### C3: Get when starting the worker fails -/

/-- An untrained, not-running record as `NewModel` creates it. -/
def mUn : Model := repo0.NewModel "m1"

/-- A registry whose cache already holds `mUn`. -/
def rC : ModelRepo := { collection := [("m1", mUn)], path := "models" }

/-- `mUn` as the failing `startModel` leaves it: channels made and the
running flag set, even though no worker exists. -/
def mUnFailed : Model := { mUn with req := .opened, rep := .opened, running := true }

/-- C3 counterexample: with the zmq socket creation failing, `Get` of the
cached non-running record "m1" returns the start error — but the record's
`running` flag is `true` after the failed attempt, not `false` as the claim
states (`startModel` sets the flag before touching zmq and no error path
resets it). -/
theorem C3_cex_running_after_failure :
    (ModelRepo.Get ⟨false, true⟩ ⟨[], []⟩ rC "m1").1 = .err .newSocketFailed ∧
    lookupA (ModelRepo.Get ⟨false, true⟩ ⟨[], []⟩ rC "m1").2.collection "m1"
        = some mUnFailed ∧
    mUnFailed.running = true :=
  ⟨rfl, rfl, rfl⟩

/-- C3 (amended): for every cached record that is not running, if starting
the worker inside `Get` fails — at either fallible zmq step, socket creation
(`newSocketFailed`) or connect (`connectFailed`) — `Get` returns that error,
but the record does not remain non-running: the cached record is exactly
what `startModel` left behind, and its `running` flag is `true`, because
`startModel` sets the flag (and makes fresh channels) before either fallible
step and neither error path resets it. -/
theorem C3_amended_start_failure (env : ZmqEnv) (disk : Disk) (r : ModelRepo)
    (id : String) (m : Model)
    (hc : lookupA r.collection id = some m)
    (hid : m.id = id)
    (hrun : m.running = false)
    (hf : env.newSocketOK = false ∨ env.connectOK = false) :
    (ModelRepo.Get env disk r id).1
        = .err (if env.newSocketOK then .connectFailed else .newSocketFailed) ∧
    lookupA (ModelRepo.Get env disk r id).2.collection id
        = some (startModel env m).2.1 ∧
    (startModel env m).2.1.running = true := by
  obtain ⟨ns, co⟩ := env
  unfold ModelRepo.Get
  rw [hc]
  unfold getStart
  cases ns with
  | false =>
    simp [startModel, hrun, ModelRepo.Add, hid, lookupA_insertA_self]
  | true =>
    rcases hf with h | h
    · simp at h
    · simp only at h
      subst h
      simp [startModel, hrun, ModelRepo.Add, hid, lookupA_insertA_self]

/-- C3 witness: the amended statement instantiated at the concrete registry
`rC` with the connect step failing (the other leg, socket-creation failure,
is the counterexample's instance). -/
theorem C3_amended_start_failure_witness :
    (ModelRepo.Get ⟨true, false⟩ ⟨[], []⟩ rC "m1").1
        = .err (if (ZmqEnv.mk true false).newSocketOK then .connectFailed
                else .newSocketFailed) ∧
    lookupA (ModelRepo.Get ⟨true, false⟩ ⟨[], []⟩ rC "m1").2.collection "m1"
        = some (startModel ⟨true, false⟩ mUn).2.1 ∧
    (startModel ⟨true, false⟩ mUn).2.1.running = true :=
  C3_amended_start_failure ⟨true, false⟩ ⟨[], []⟩ rC "m1" mUn rfl rfl rfl
    (Or.inr rfl)

/-! ### C9: the success path of startModel -/

theorem string_append_cancel_left (s a b : String) (h : s ++ a = s ++ b) :
    a = b := by
  have e : ∀ x y : String, (x ++ y).data = x.data ++ y.data := by
    intro x y
    cases x
    cases y
    rfl
  have hd := congrArg String.data h
  rw [e s a, e s b] at hd
  have hab : a.data = b.data := by
    simpa using hd
  calc a = ⟨a.data⟩ := rfl
    _ = ⟨b.data⟩ := congrArg String.mk hab
    _ = b := rfl

/-- C9: for every record, a successful `startModel` makes fresh (open)
request and response channels, sets the running flag, and performs exactly
one launch: `python3 -` with exactly two positional script arguments — the
IPC endpoint `ipc:///tmp/<id>` derived from the model's id (injectively:
distinct ids give distinct endpoints) and the artifact path
`<dir>/<id>.pkl`. -/
theorem C9_startModel_launch (env : ZmqEnv) (m mOther : Model)
    (h1 : env.newSocketOK = true) (h2 : env.connectOK = true)
    (hne : mOther.id ≠ m.id) :
    (startModel env m).1 = .ok () ∧
    (startModel env m).2.1.req = .opened ∧
    (startModel env m).2.1.rep = .opened ∧
    (startModel env m).2.1.running = true ∧
    (startModel env m).2.2
        = [{ prog := "python3", args := ["-", ipcEndpoint m, artifactPath m] }] ∧
    Launch.scriptArgs
        { prog := "python3", args := ["-", ipcEndpoint m, artifactPath m] }
        = [ipcEndpoint m, artifactPath m] ∧
    artifactPath m = m.dir ++ "/" ++ m.id ++ ".pkl" ∧
    ipcEndpoint mOther ≠ ipcEndpoint m := by
  refine ⟨?_, ?_, ?_, ?_, ?_, ?_, ?_,
      fun heq =>
        hne (string_append_cancel_left "ipc:///tmp/" mOther.id m.id heq)⟩ <;>
    simp [startModel, h1, h2, Launch.scriptArgs, artifactPath]

/-- C9 witness: the successful start of the freshly created record `mUn`
("m1" under root "models"), against a record with a different id "m2". -/
theorem C9_startModel_launch_witness :
    (startModel ⟨true, true⟩ mUn).1 = .ok () ∧
    (startModel ⟨true, true⟩ mUn).2.1.req = .opened ∧
    (startModel ⟨true, true⟩ mUn).2.1.rep = .opened ∧
    (startModel ⟨true, true⟩ mUn).2.1.running = true ∧
    (startModel ⟨true, true⟩ mUn).2.2
        = [{ prog := "python3", args := ["-", ipcEndpoint mUn, artifactPath mUn] }] ∧
    Launch.scriptArgs
        { prog := "python3", args := ["-", ipcEndpoint mUn, artifactPath mUn] }
        = [ipcEndpoint mUn, artifactPath mUn] ∧
    artifactPath mUn = mUn.dir ++ "/" ++ mUn.id ++ ".pkl" ∧
    ipcEndpoint (repo0.NewModel "m2") ≠ ipcEndpoint mUn :=
  C9_startModel_launch ⟨true, true⟩ mUn (repo0.NewModel "m2") rfl rfl
    (by decide)

/-! ### C2: Predict against a stopped or dead worker -/

/-- C2 counterexample: after the worker process of a running model exits
(the supervisor sets `running = false` and closes the request channel), a
subsequent `Predict` is a *panic* — a send on a closed channel — not a
WorkerUnavailable condition returned to the caller; and with a nil request
channel `Predict` returns the zero `Prediction` value, which carries no
error condition at all.  This falsifies the claim that such calls "fail with
a WorkerUnavailable condition ... rather than blocking forever or
crashing". -/
theorem C2_cex_predict_after_exit :
    (workerExit m1started).running = false ∧
    Model.Predict (workerExit m1started) ⟨"m1", "", 0, [], [], false⟩
        (fun _ => []) (fun _ => none) (fun b => b) = .panicSendClosed ∧
    Model.Predict m1loaded ⟨"m1", "", 0, [], [], false⟩
        (fun _ => []) (fun _ => none) (fun b => b) = .ret zeroPrediction :=
  ⟨rfl, rfl, rfl⟩

/-- C2 (amended): if a model's request channel is nil, `Predict` returns the
zero `Prediction` (no error value reaches the caller) without blocking or
crashing; after the worker process of a running model exits, the supervisor
sets `running = false` and closes the request channel, and a subsequent
`Predict` panics on the send to the closed channel (a crash), rather than
failing with a WorkerUnavailable condition. -/
theorem C2_amended_predict_dead_worker (mNil mRun : Model) (r : ModelReq)
    (encode : ModelReq → Bytes)
    (decodeLabels : Bytes → Option (List LabelProbs))
    (workerReply : Bytes → Bytes)
    (hnil : mNil.req = .unset) :
    Model.Predict mNil r encode decodeLabels workerReply = .ret zeroPrediction ∧
    (workerExit mRun).running = false ∧
    (workerExit mRun).req = .closed ∧
    Model.Predict (workerExit mRun) r encode decodeLabels workerReply
        = .panicSendClosed :=
  ⟨by simp [Model.Predict, hnil], rfl, rfl, by simp [Model.Predict, workerExit]⟩

/-- C2 witness: the amended statement at the freshly loaded record (nil
request channel) and the started-then-exited record. -/
theorem C2_amended_predict_dead_worker_witness :
    Model.Predict m1loaded ⟨"m1", "", 0, [], [], false⟩
        (fun _ => []) (fun _ => none) (fun b => b) = .ret zeroPrediction ∧
    (workerExit m1started).running = false ∧
    (workerExit m1started).req = .closed ∧
    Model.Predict (workerExit m1started) ⟨"m1", "", 0, [], [], false⟩
        (fun _ => []) (fun _ => none) (fun b => b) = .panicSendClosed :=
  C2_amended_predict_dead_worker m1loaded m1started ⟨"m1", "", 0, [], [], false⟩
    (fun _ => []) (fun _ => none) (fun b => b) rfl

/-! ### C8: Stop -/

/-- C8 counterexample: calling `Stop` on a model whose worker process has
already exited is not an error-free no-op — `Process.Signal` on a finished
process fails, and `Stop` returns that error.  This falsifies the claim that
"calling stop on a model whose worker is already stopped is a no-op that
returns no error". -/
theorem C8_cex_stop_after_exit :
    (Model.Stop (workerExit m1started)).1
      = .error "os: process already finished" :=
  rfl

/-- C8 (amended): `Stop` sends only the graceful interrupt signal (never
kill) and returns immediately without mutating the model — in particular the
`running = false` transition is performed asynchronously by the supervisor
(`workerExit`), never inside `Stop`.  `Stop` is an error-free no-op only on
a model to which no process was ever attached; on a model whose worker
process has already exited it signals the finished process and returns the
resulting "process already finished" error. -/
theorem C8_amended_stop (m mNever mDead : Model) (p : Proc)
    (hn : mNever.cmd = none)
    (hd : mDead.cmd = some p) (hp : p.exited = true) :
    (Model.Stop m).2.2 = m ∧
    (workerExit m).running = false ∧
    Sig.kill ∉ (Model.Stop m).2.1 ∧
    (Model.Stop mNever).1 = .ok () ∧
    (Model.Stop mNever).2.1 = [] ∧
    (Model.Stop mDead).1 = .error "os: process already finished" ∧
    (Model.Stop mDead).2.1 = [Sig.interrupt] := by
  have hstop : (Model.Stop m).2.2 = m ∧ Sig.kill ∉ (Model.Stop m).2.1 := by
    cases hm : m.cmd <;> simp [Model.Stop, hm]
  refine ⟨hstop.1, rfl, hstop.2, ?_, ?_, ?_, ?_⟩ <;>
    simp [Model.Stop, hn, hd, signalProc, hp]

/-- C8 witness: the amended statement at a running started model, the
never-started record `mUn`, and the started-then-exited record. -/
theorem C8_amended_stop_witness :
    (Model.Stop m1started).2.2 = m1started ∧
    (workerExit m1started).running = false ∧
    Sig.kill ∉ (Model.Stop m1started).2.1 ∧
    (Model.Stop mUn).1 = .ok () ∧
    (Model.Stop mUn).2.1 = [] ∧
    (Model.Stop (workerExit m1started)).1
        = .error "os: process already finished" ∧
    (Model.Stop (workerExit m1started)).2.1 = [Sig.interrupt] :=
  C8_amended_stop m1started mUn (workerExit m1started) { exited := true }
    rfl rfl rfl

/-! ### C5: outcomes of a fit job -/

/-- C5: for a freshly created record (trained flag `false`) whose id is not
yet cached and whose metadata file is not yet on disk: a fit whose worker
exits 0 (and so writes the metadata file) leaves the registry holding, under
the model's id, the reloaded record with `trained = true` and the
performance score of the written metadata; a fit whose worker exits nonzero
(writing nothing) leaves the registry unchanged, so no record with that id
appears in any `All` (list) enumeration. -/
theorem C5_fit_outcomes (disk : Disk) (r : ModelRepo) (id : String)
    (mf : ModelFile)
    (hc : lookupA r.collection id = none)
    (hid : mf.id = id)
    (hwf : ∀ p ∈ r.collection, (p.2).id = p.1)
    (hd : disk.file (metaPath r.path id) = none) :
    (r.NewModel id).trained = false ∧
    lookupA (fitModel true mf disk (r.NewModel id) r).2.collection id
        = some (decodeModel mf (r.path ++ "/" ++ id)) ∧
    (decodeModel mf (r.path ++ "/" ++ id)).trained = true ∧
    (decodeModel mf (r.path ++ "/" ++ id)).performance.score
        = mf.performance.score ∧
    (fitModel false mf disk (r.NewModel id) r).2 = r ∧
    ((fitModel false mf disk (r.NewModel id) r).2.All.filter
        (fun mm => mm.id == id)) = [] := by
  have hfail : (fitModel false mf disk (r.NewModel id) r).2 = r := by
    simp [fitModel, ModelRepo.LoadModelData, ModelRepo.NewModel, hc, hd]
  refine ⟨rfl, ?_, rfl, rfl, hfail, ?_⟩
  · simp [fitModel, ModelRepo.LoadModelData, ModelRepo.NewModel, hc,
      Disk.write, Disk.file, lookupA_insertA_self, ModelRepo.Add, decodeModel,
      hid, metaPath]
  · rw [hfail]
    rw [List.filter_eq_nil_iff]
    intro mm hmm
    rcases List.mem_map.mp hmm with ⟨p, hp, hpe⟩
    have h1 : p.1 ≠ id := lookupA_eq_none_forall r.collection id hc p hp
    have h2 : mm.id = p.1 := by rw [← hpe]; exact hwf p hp
    simp [h2, h1]

/-- C5 witness: fitting the fresh record "m1" in the empty registry `repo0`
on an empty disk, with the fit worker writing metadata `mf1`. -/
theorem C5_fit_outcomes_witness :
    (repo0.NewModel "m1").trained = false ∧
    lookupA (fitModel true mf1 ⟨[], []⟩ (repo0.NewModel "m1") repo0).2.collection
        "m1" = some (decodeModel mf1 (repo0.path ++ "/" ++ "m1")) ∧
    (decodeModel mf1 (repo0.path ++ "/" ++ "m1")).trained = true ∧
    (decodeModel mf1 (repo0.path ++ "/" ++ "m1")).performance.score
        = mf1.performance.score ∧
    (fitModel false mf1 ⟨[], []⟩ (repo0.NewModel "m1") repo0).2 = repo0 ∧
    ((fitModel false mf1 ⟨[], []⟩ (repo0.NewModel "m1") repo0).2.All.filter
        (fun mm => mm.id == "m1")) = [] :=
  C5_fit_outcomes ⟨[], []⟩ repo0 "m1" mf1 rfl rfl (by simp [repo0, NewModelRepo])
    rfl

/-! ### C7: IndexModelDir skips corrupt entries, silently -/

/-- A sample disk with one valid model ("m1") and one corrupt entry
("bad"). -/
def disk2 : Disk :=
  { entries := ["m1", "bad"]
    files := [(metaPath "models" "m1", .valid mf1),
              (metaPath "models" "bad", .corrupt)] }

/-- The scan never logs: the loop of `IndexModelDir` discards
`LoadModelData`'s error unexamined and neither it nor `LoadModelData`
contains a logging statement. -/
theorem indexLoop_log_nil (disk : Disk) :
    ∀ (es : List String) (r : ModelRepo), (indexLoop disk r es).2 = [] := by
  intro es
  induction es with
  | nil => intro r; rfl
  | cons e es ih => intro r; simp [indexLoop, ih]

/-- C7 counterexample: the registry after the scan has loaded "m1" still
fails to load the corrupt entry "bad" (a per-entry load failure occurs), yet
the log trace of the whole `IndexModelDir` scan over `disk2` is empty — the
failure is skipped but *not* logged, falsifying the claim's "a load failure
for one entry ... is logged and skipped". -/
theorem C7_cex_failure_not_logged :
    (((NewModelRepo "models").LoadModelData disk2 "m1").2.LoadModelData disk2
        "bad").1 = .error .decodeFailure ∧
    (ModelRepo.IndexModelDir disk2 (NewModelRepo "models")).2.2 = [] :=
  ⟨rfl, rfl⟩

/-- C7 (amended): over a model root whose directory holds one entry `a` with
valid metadata and one entry `b` with corrupt metadata, `IndexModelDir` on a
fresh registry returns no error for the scan as a whole and yields exactly
one loaded record — the one for `a`; the failing entry is skipped silently,
without aborting the scan but also without being logged (the scan emits no
log entries at all). -/
theorem C7_amended_index_skips_corrupt (disk : Disk) (root a b : String)
    (mfa : ModelFile)
    (hents : disk.entries = [a, b])
    (ha : disk.file (metaPath root a) = some (.valid mfa))
    (hid : mfa.id = a)
    (hb : disk.file (metaPath root b) = some .corrupt) :
    (ModelRepo.IndexModelDir disk (NewModelRepo root)).1 = .ok () ∧
    (ModelRepo.IndexModelDir disk (NewModelRepo root)).2.1.All
        = [decodeModel mfa (root ++ "/" ++ a)] ∧
    (ModelRepo.IndexModelDir disk (NewModelRepo root)).2.2 = [] := by
  have hab : a ≠ b := by
    intro h
    subst h
    rw [ha] at hb
    simp at hb
  refine ⟨rfl, ?_, indexLoop_log_nil disk disk.entries (NewModelRepo root)⟩
  unfold ModelRepo.IndexModelDir
  rw [hents]
  simp [indexLoop, ModelRepo.LoadModelData, NewModelRepo, lookupA, ha, hb,
    hid, hab, ModelRepo.Add, insertA, ModelRepo.All, decodeModel]

/-- C7 witness: indexing `disk2` from a fresh registry yields exactly the
record loaded from "m1", no scan error, and an empty log trace. -/
theorem C7_amended_index_skips_corrupt_witness :
    (ModelRepo.IndexModelDir disk2 (NewModelRepo "models")).1 = .ok () ∧
    (ModelRepo.IndexModelDir disk2 (NewModelRepo "models")).2.1.All
        = [decodeModel mf1 ("models" ++ "/" ++ "m1")] ∧
    (ModelRepo.IndexModelDir disk2 (NewModelRepo "models")).2.2 = [] :=
  C7_amended_index_skips_corrupt disk2 "models" "m1" "bad" mf1 rfl rfl rfl rfl

/-! ### C6: the bridging task -/

theorem bridgeTrace_eq_blocks (worker : Bytes → Bytes) (reqs : List Bytes) :
    bridgeTrace worker reqs
      = bridgeBlocks worker reqs ++ [BridgeEvent.repClose] := by
  induction reqs with
  | nil => simp [bridgeTrace, bridgeBlocks]
  | cons q qs ih => simp [bridgeTrace, bridgeBlocks, ih]

theorem repClose_not_mem_blocks (worker : Bytes → Bytes) (reqs : List Bytes) :
    BridgeEvent.repClose ∉ bridgeBlocks worker reqs := by
  induction reqs with
  | nil => simp [bridgeBlocks]
  | cons q qs ih => simp [bridgeBlocks, ih]

theorem bridgeTrace_sends (worker : Bytes → Bytes) (reqs : List Bytes) :
    (bridgeTrace worker reqs).filterMap BridgeEvent.sendMsg = reqs := by
  induction reqs with
  | nil => simp [bridgeTrace, BridgeEvent.sendMsg]
  | cons q qs ih =>
    simp [bridgeTrace, BridgeEvent.sendMsg, BridgeEvent.recvMsg,
      BridgeEvent.writeMsg, ih]

theorem bridgeTrace_recvs (worker : Bytes → Bytes) (reqs : List Bytes) :
    (bridgeTrace worker reqs).filterMap BridgeEvent.recvMsg
      = reqs.map worker := by
  induction reqs with
  | nil => simp [bridgeTrace, BridgeEvent.recvMsg]
  | cons q qs ih =>
    simp [bridgeTrace, BridgeEvent.sendMsg, BridgeEvent.recvMsg,
      BridgeEvent.writeMsg, ih]

theorem bridgeTrace_writes (worker : Bytes → Bytes) (reqs : List Bytes) :
    (bridgeTrace worker reqs).filterMap BridgeEvent.writeMsg
      = reqs.map worker := by
  induction reqs with
  | nil => simp [bridgeTrace, BridgeEvent.writeMsg]
  | cons q qs ih =>
    simp [bridgeTrace, BridgeEvent.sendMsg, BridgeEvent.recvMsg,
      BridgeEvent.writeMsg, ih]

theorem bridgeTrace_inflight (worker : Bytes → Bytes) :
    ∀ (reqs : List Bytes) (n : Nat),
      countWrites ((bridgeTrace worker reqs).take n)
          ≤ countSends ((bridgeTrace worker reqs).take n) ∧
      countSends ((bridgeTrace worker reqs).take n)
          ≤ countWrites ((bridgeTrace worker reqs).take n) + 1 := by
  intro reqs
  induction reqs with
  | nil =>
    intro n
    match n with
    | 0 => simp [countSends, countWrites]
    | n + 1 => simp [bridgeTrace, countSends, countWrites]
  | cons q qs ih =>
    intro n
    match n with
    | 0 => simp [countSends, countWrites]
    | 1 => simp [bridgeTrace, countSends, countWrites]
    | 2 => simp [bridgeTrace, countSends, countWrites]
    | k + 3 =>
      have h := ih k
      simp only [bridgeTrace, List.take_succ_cons]
      simp only [countSends, countWrites]
      omega

/-- C6: the bridging task of `startModel`, run on the sequence `reqs` of
requests the request channel carries before it is closed, produces exactly
the trace `bridgeBlocks ++ [repClose]`: the IPC sends are exactly the
requests in FIFO order; each request gets exactly one IPC send, then one IPC
receive, then one reply written to the response channel (so in every trace
position the number of replies never exceeds the number of sends and lags it
by at most one — at most one call in flight); the response channel is closed
exactly once, as the final action after the request channel is exhausted. -/
theorem C6_bridge_task (worker : Bytes → Bytes) (reqs : List Bytes) :
    bridgeTrace worker reqs
        = bridgeBlocks worker reqs ++ [BridgeEvent.repClose] ∧
    (bridgeTrace worker reqs).filterMap BridgeEvent.sendMsg = reqs ∧
    (bridgeTrace worker reqs).filterMap BridgeEvent.recvMsg
        = reqs.map worker ∧
    (bridgeTrace worker reqs).filterMap BridgeEvent.writeMsg
        = reqs.map worker ∧
    (∀ n : Nat,
      countWrites ((bridgeTrace worker reqs).take n)
          ≤ countSends ((bridgeTrace worker reqs).take n) ∧
      countSends ((bridgeTrace worker reqs).take n)
          ≤ countWrites ((bridgeTrace worker reqs).take n) + 1) ∧
    BridgeEvent.repClose ∉ bridgeBlocks worker reqs ∧
    (bridgeTrace worker reqs).getLast? = some BridgeEvent.repClose := by
  refine ⟨bridgeTrace_eq_blocks worker reqs, bridgeTrace_sends worker reqs,
    bridgeTrace_recvs worker reqs, bridgeTrace_writes worker reqs,
    bridgeTrace_inflight worker reqs, repClose_not_mem_blocks worker reqs, ?_⟩
  rw [bridgeTrace_eq_blocks]
  simp

end MLServer
